import Mathlib

/-!
Verification development for the Caliper on-line aggregation service
(src/src/services/aggregate/Aggregate.cpp).  The data model and the
operations of the `AggregateDB` class are shallowly embedded: machine
doubles are modelled as exact rationals (the concrete witnesses only use
values on which the IEEE-754 operations are exact), `size_t` counters as
naturals, and the `static_cast<uint32_t>` truncations appear as explicit
`% 2 ^ 32`.  Pointers into the block allocator are modelled as integer
ids together with an explicit store; the one out-of-bounds array access
the source can perform (`m_blocks[MAX_BLOCKS]`) is marked by a dedicated
outcome constructor.
-/

/-- MAX_KEYLEN from Aggregate.cpp line 64. -/
def MAX_KEYLEN : Nat := 128

/-- SNAP_MAX from Aggregate.cpp line 65. -/
def SNAP_MAX : Nat := 80

/-- Default MAX_BLOCKS template parameter of BlockAlloc (line 112). -/
def MAX_BLOCKS : Nat := 2048

/-- Default ENTRIES_PER_BLOCK template parameter of BlockAlloc (line 112). -/
def ENTRIES_PER_BLOCK : Nat := 1024

/-- The k_id sentinel 0xFFFFFFFF (lines 108, 231). -/
def U32_SENTINEL : Nat := 4294967295

/-- Exact value of std::numeric_limits of double ::max() = (2^53 - 1) * 2^971. -/
def DBL_MAX : ℚ := (2 ^ 53 - 1) * 2 ^ 971

/-- Exact value of std::numeric_limits of double ::min(), the smallest
positive normal double, 2^(-1022). -/
def DBL_MIN : ℚ := 1 / 2 ^ 1022

/-- AggregateDB::AggregateKernel (lines 86-104).  Doubles are modelled as
rationals; `count` is a C `int`, modelled as Nat (it is only incremented). -/
structure AggregateKernel where
  min : ℚ
  max : ℚ
  sum : ℚ
  count : Nat
deriving DecidableEq

/-- The AggregateKernel constructor (lines 92-96): note that the source
initializes `min` to `numeric_limits<double>::max()` and `max` to
`numeric_limits<double>::min()` (the smallest positive normal), not to
plus/minus infinity. -/
def AggregateKernel.init : AggregateKernel :=
  { min := DBL_MAX, max := DBL_MIN, sum := 0, count := 0 }

/-- AggregateKernel::add (lines 98-103). -/
def AggregateKernel.add (k : AggregateKernel) (v : ℚ) : AggregateKernel :=
  { min := Min.min k.min v, max := Max.max k.max v, sum := k.sum + v,
    count := k.count + 1 }

/-- The fold of AggregateKernel::add over a list of values. -/
def AggregateKernel.addAll (k : AggregateKernel) (vs : List ℚ) : AggregateKernel :=
  vs.foldl AggregateKernel.add k

/-- AggregateDB::TrieNode (lines 106-110).  The 256-entry child table is a
function from byte values to child ids; `k_id` starts at the sentinel. -/
structure TrieNode where
  next : Nat → Nat
  k_id : Nat
  count : Nat

/-- A default-initialized TrieNode (lines 107-109): all children 0,
k_id = 0xFFFFFFFF, count = 0. -/
def TrieNode.init : TrieNode :=
  { next := fun _ => 0, k_id := U32_SENTINEL, count := 0 }

/-- Outcome of BlockAlloc::get.  `found` models a non-null pointer return,
`notFound` a null return.  `oobAccess` marks the case `block = MAX_BLOCKS`:
the source's guard is `block > MAX_BLOCKS` (line 122), so for that block
index the source reads (and possibly installs) `m_blocks[MAX_BLOCKS]`, one
past the end of the `m_blocks[MAX_BLOCKS]` array - undefined behaviour,
which the shallow embedding must make explicit. -/
inductive GetOutcome where
  | notFound
  | oobAccess
  | found
deriving DecidableEq

/-- AggregateDB::BlockAlloc state (lines 112-156): the fixed array of block
pointers is a map from block index to an optional block (offset-indexed
contents), plus the m_num_blocks counter. -/
structure BlockAlloc (T : Type) where
  blocks : Nat → Option (Nat → T)
  num_blocks : Nat

/-- A BlockAlloc with no blocks allocated (initial state, also the state
after clear(), lines 136-143). -/
def BlockAlloc.empty (T : Type) : BlockAlloc T :=
  { blocks := fun _ => none, num_blocks := 0 }

/-- BlockAlloc::get (lines 119-134).  `dflt` is the value a freshly
default-initialized element of a new block holds (`new T[ENTRIES_PER_BLOCK]`
runs the default constructor / member initializers).  Returns the updated
state and the outcome.  The source's bound check is the strict
`block > MAX_BLOCKS`; the second branch marks the out-of-bounds access that
the source performs when `block = MAX_BLOCKS`. -/
def BlockAlloc.get {T : Type} (dflt : T) (st : BlockAlloc T) (id : Nat)
    (alloc : Bool) : BlockAlloc T × GetOutcome :=
  let block := id / ENTRIES_PER_BLOCK
  if MAX_BLOCKS < block then (st, GetOutcome.notFound)
  else if MAX_BLOCKS ≤ block then (st, GetOutcome.oobAccess)
  else
    match st.blocks block with
    | some _ => (st, GetOutcome.found)
    | none =>
      if alloc then
        ({ blocks := Function.update st.blocks block (some (fun _ => dflt)),
           num_blocks := st.num_blocks + 1 }, GetOutcome.found)
      else (st, GetOutcome.notFound)

/-- Dereference the element handle returned by a successful get: read the
element at offset id % ENTRIES_PER_BLOCK of block id / ENTRIES_PER_BLOCK. -/
def BlockAlloc.read {T : Type} (dflt : T) (st : BlockAlloc T) (id : Nat) : T :=
  match st.blocks (id / ENTRIES_PER_BLOCK) with
  | some blk => blk (id % ENTRIES_PER_BLOCK)
  | none => dflt

/-- Store through the element handle: update the element in place.  Writes
only ever happen through handles of allocated blocks, so the absent-block
case is a no-op. -/
def BlockAlloc.write {T : Type} (st : BlockAlloc T) (id : Nat) (v : T) :
    BlockAlloc T :=
  match st.blocks (id / ENTRIES_PER_BLOCK) with
  | some blk =>
      { blocks := Function.update st.blocks (id / ENTRIES_PER_BLOCK)
          (some (Function.update blk (id % ENTRIES_PER_BLOCK) v)),
        num_blocks := st.num_blocks }
  | none => st

/-- C1: a freshly created aggregation kernel is claimed to have min = plus
infinity and max = minus infinity, and after add(v1) ... add(vn) its max is
claimed to equal the maximum of the vi.  The source (lines 92-96) instead
initializes min to DBL_MAX and max to DBL_MIN, the smallest positive normal
double.  At the concrete failing input add(-1) the code's max is DBL_MIN =
2^(-1022), while the claimed fold over the single value -1 gives max = -1:
the emitted maximum is wrong for any all-negative sample sequence.  The
spec itself (section 9) records this initialization as a bug in the source. -/
theorem c1_kernel_init_bug :
    AggregateKernel.init.min = DBL_MAX ∧
    AggregateKernel.init.max = DBL_MIN ∧
    (AggregateKernel.init.addAll [-1]).max = DBL_MIN ∧
    (AggregateKernel.init.addAll [-1]).max ≠ -1 ∧
    0 < DBL_MIN := by
  refine ⟨rfl, rfl, ?_, ?_, by norm_num [DBL_MIN]⟩ <;>
    simp [AggregateKernel.addAll, AggregateKernel.add, AggregateKernel.init,
      max_eq_left, DBL_MIN] <;> norm_num

/-- C3: BlockAlloc::get is claimed to fail with not-found for every id whose
block index is at or beyond MAX_BLOCKS, never touching a block pointer
outside the MAX_BLOCKS-entry array.  The source's guard (line 122) is the
strict `block > MAX_BLOCKS`, so at id = MAX_BLOCKS * ENTRIES_PER_BLOCK
(block index exactly MAX_BLOCKS) the guard passes and the source accesses
m_blocks[MAX_BLOCKS], one past the end of the array, for both alloc = true
and alloc = false - the modelled oobAccess outcome, not the claimed
not-found.  The spec itself (section 9) records that the test should be
greater-or-equal. -/
theorem c3_blockalloc_oob_access :
    MAX_BLOCKS ≤ MAX_BLOCKS * ENTRIES_PER_BLOCK / ENTRIES_PER_BLOCK ∧
    (BlockAlloc.get TrieNode.init (BlockAlloc.empty TrieNode)
        (MAX_BLOCKS * ENTRIES_PER_BLOCK) true).2 = GetOutcome.oobAccess ∧
    (BlockAlloc.get TrieNode.init (BlockAlloc.empty TrieNode)
        (MAX_BLOCKS * ENTRIES_PER_BLOCK) false).2 = GetOutcome.oobAccess ∧
    GetOutcome.oobAccess ≠ GetOutcome.notFound := by
  refine ⟨by norm_num [MAX_BLOCKS, ENTRIES_PER_BLOCK], ?_, ?_, by decide⟩ <;>
    simp [BlockAlloc.get, BlockAlloc.empty, MAX_BLOCKS, ENTRIES_PER_BLOCK]

/-- Set one entry of a TrieNode's child table (`entry->next[key[i]] = id`,
line 225). -/
def TrieNode.setNext (t : TrieNode) (b id : Nat) : TrieNode :=
  { t with next := Function.update t.next b id }

/-- The per-thread aggregation database, the members of class AggregateDB
that the aggregation core touches (lines 76-167).  `aggr_attributes` keeps
the attribute ids of m_aggr_attributes (only ids and the vector length are
used by the core); the registry pointers m_next/m_prev live in the registry
model further below. -/
structure AggregateDB where
  trie : BlockAlloc TrieNode
  kernels : BlockAlloc AggregateKernel
  aggr_attributes : List Nat
  num_trie_entries : Nat
  num_kernel_entries : Nat
  num_dropped : Nat
  max_keylen : Nat
  stopped : Bool
  retired : Bool

/-- AggregateDB::clear (lines 342-350): drop all blocks of both pools and
reset the four statistics counters. -/
def AggregateDB.clear (db : AggregateDB) : AggregateDB :=
  { db with
    trie := BlockAlloc.empty TrieNode,
    kernels := BlockAlloc.empty AggregateKernel,
    num_trie_entries := 0, num_kernel_entries := 0,
    num_dropped := 0, max_keylen := 0 }

/-- The AggregateDB constructor (lines 532-561) as far as the aggregation
core is concerned: zeroed counters, cleared flags, the aggregated attribute
ids, and the first block of each pool allocated eagerly
(`m_trie.get(0, true); m_kernels.get(0, true)`). -/
def AggregateDB.fresh (aggrIds : List Nat) : AggregateDB :=
  let db0 : AggregateDB :=
    { trie := BlockAlloc.empty TrieNode,
      kernels := BlockAlloc.empty AggregateKernel,
      aggr_attributes := aggrIds,
      num_trie_entries := 0, num_kernel_entries := 0,
      num_dropped := 0, max_keylen := 0,
      stopped := false, retired := false }
  let db1 := { db0 with trie := (BlockAlloc.get TrieNode.init db0.trie 0 true).1 }
  { db1 with kernels := (BlockAlloc.get AggregateKernel.init db1.kernels 0 true).1 }

/-- One iteration of the byte loop of AggregateDB::find_entry
(lines 221-226), before the trailing get: read the child id for byte `b` of
node `cur`; when it is 0 the source unconditionally assigns a fresh id -
`id = static_cast<uint32_t>(++m_num_trie_entries); entry->next[key[i]] = id;`
- without consulting `alloc`.  Returns the updated database and the id to
descend into. -/
def findStep (db : AggregateDB) (cur b : Nat) : AggregateDB × Nat :=
  let node := BlockAlloc.read TrieNode.init db.trie cur
  if node.next b = 0 then
    ({ db with
        num_trie_entries := db.num_trie_entries + 1,
        trie := db.trie.write cur
          (node.setNext b ((db.num_trie_entries + 1) % 2 ^ 32)) },
      (db.num_trie_entries + 1) % 2 ^ 32)
  else (db, node.next b)

/-- The byte loop of AggregateDB::find_entry (lines 220-229): iterate
findStep followed by `entry = m_trie.get(id, alloc)` over the key bytes.  A
get outcome other than `found` (null pointer, or the marked out-of-bounds
access) ends the walk with no entry, exactly as the loop condition
`entry && i < n` does. -/
def findLoop (db : AggregateDB) (cur : Nat) (key : List Nat) (alloc : Bool) :
    AggregateDB × Option Nat :=
  match key with
  | [] => (db, some cur)
  | b :: rest =>
    match BlockAlloc.get TrieNode.init (findStep db cur b).1.trie
        (findStep db cur b).2 alloc with
    | (trie1, GetOutcome.found) =>
        findLoop { (findStep db cur b).1 with trie := trie1 }
          (findStep db cur b).2 rest alloc
    | (trie1, _) => ({ (findStep db cur b).1 with trie := trie1 }, none)

/-- The kernel-slot loop of AggregateDB::find_entry (lines 239-241): ensure
kernels first .. first + rem - 1 exist, `i` being the running offset; a
failed get makes find_entry return null. -/
def kernelEnsureLoop (db : AggregateDB) (first i rem : Nat) (alloc : Bool) :
    AggregateDB × Bool :=
  match rem with
  | 0 => (db, true)
  | r + 1 =>
    match BlockAlloc.get AggregateKernel.init db.kernels (first + i) alloc with
    | (k1, GetOutcome.found) =>
        kernelEnsureLoop { db with kernels := k1 } first (i + 1) r alloc
    | (k1, _) => ({ db with kernels := k1 }, false)

/-- AggregateDB::find_entry (lines 217-248).  Acquire the root, walk the key
bytes, then - if the terminal's k_id is the sentinel and aggregated
attributes are configured - reserve kernel ids
first_id .. first_id + num_ids - 1 (advancing m_num_kernel_entries before
the gets, as the source does, line 237) and store first_id into k_id.
Returns the updated database and the terminal's id, or none for a null
entry. -/
def find_entry (db : AggregateDB) (key : List Nat) (alloc : Bool) :
    AggregateDB × Option Nat :=
  match BlockAlloc.get TrieNode.init db.trie 0 alloc with
  | (trie0, GetOutcome.found) =>
    match findLoop { db with trie := trie0 } 0 key alloc with
    | (db1, some eid) =>
      let node := BlockAlloc.read TrieNode.init db1.trie eid
      if node.k_id = U32_SENTINEL then
        if 0 < db1.aggr_attributes.length then
          let first_id := (db1.num_kernel_entries + 1) % 2 ^ 32
          let db2 := { db1 with
            num_kernel_entries := db1.num_kernel_entries + db1.aggr_attributes.length }
          match kernelEnsureLoop db2 first_id 0 db1.aggr_attributes.length alloc with
          | (db3, true) =>
              ({ db3 with trie := db3.trie.write eid { node with k_id := first_id } },
                some eid)
          | (db3, false) => (db3, none)
        else (db1, some eid)
      else (db1, some eid)
    | (db1, none) => (db1, none)
  | (trie0, _) => ({ db with trie := trie0 }, none)

/-- With alloc = false, BlockAlloc::get never changes the allocator state. -/
theorem BlockAlloc.get_false_fst {T : Type} (dflt : T) (st : BlockAlloc T)
    (id : Nat) : (BlockAlloc.get dflt st id false).1 = st := by
  unfold BlockAlloc.get
  by_cases h1 : MAX_BLOCKS < id / ENTRIES_PER_BLOCK
  · simp [h1]
  · by_cases h2 : MAX_BLOCKS ≤ id / ENTRIES_PER_BLOCK
    · simp [h1, h2]
    · rcases h3 : st.blocks (id / ENTRIES_PER_BLOCK) with _ | blk <;>
        simp [h1, h2, h3]

/-- BlockAlloc::write never changes the number of allocated blocks. -/
theorem BlockAlloc.write_num_blocks {T : Type} (st : BlockAlloc T) (id : Nat)
    (v : T) : (st.write id v).num_blocks = st.num_blocks := by
  unfold BlockAlloc.write
  rcases h : st.blocks (id / ENTRIES_PER_BLOCK) with _ | blk <;> simp [h]

/-- findStep preserves the trie block count. -/
theorem findStep_trie_num_blocks (db : AggregateDB) (cur b : Nat) :
    (findStep db cur b).1.trie.num_blocks = db.trie.num_blocks := by
  unfold findStep
  by_cases h : (BlockAlloc.read TrieNode.init db.trie cur).next b = 0 <;>
    simp [h, BlockAlloc.write_num_blocks]

/-- findStep does not touch the kernel pool. -/
theorem findStep_kernels (db : AggregateDB) (cur b : Nat) :
    (findStep db cur b).1.kernels = db.kernels := by
  unfold findStep
  by_cases h : (BlockAlloc.read TrieNode.init db.trie cur).next b = 0 <;>
    simp [h]

/-- The byte loop of find_entry with alloc = false preserves the trie block
count and the whole kernel pool. -/
theorem findLoop_false_num_blocks (key : List Nat) (db : AggregateDB)
    (cur : Nat) :
    (findLoop db cur key false).1.trie.num_blocks = db.trie.num_blocks ∧
    (findLoop db cur key false).1.kernels = db.kernels := by
  induction key generalizing db cur with
  | nil => exact ⟨rfl, rfl⟩
  | cons b rest ih =>
    rw [findLoop]
    rcases hget : BlockAlloc.get TrieNode.init (findStep db cur b).1.trie
        (findStep db cur b).2 false with ⟨trie1, out⟩
    have ht1 : trie1 = (findStep db cur b).1.trie := by
      have h := BlockAlloc.get_false_fst TrieNode.init (findStep db cur b).1.trie
        (findStep db cur b).2
      rw [hget] at h
      exact h
    subst ht1
    cases out with
    | found =>
      simp only
      have hr := ih { (findStep db cur b).1 with trie := (findStep db cur b).1.trie }
        (findStep db cur b).2
      constructor
      · exact hr.1.trans (findStep_trie_num_blocks db cur b)
      · exact hr.2.trans (findStep_kernels db cur b)
    | notFound =>
      exact ⟨findStep_trie_num_blocks db cur b, findStep_kernels db cur b⟩
    | oobAccess =>
      exact ⟨findStep_trie_num_blocks db cur b, findStep_kernels db cur b⟩

/-- The kernel loop of find_entry with alloc = false preserves the trie and
the kernel pool's block count. -/
theorem kernelEnsureLoop_false_num_blocks (rem : Nat) (db : AggregateDB)
    (first i : Nat) :
    (kernelEnsureLoop db first i rem false).1.trie = db.trie ∧
    (kernelEnsureLoop db first i rem false).1.kernels.num_blocks =
      db.kernels.num_blocks := by
  induction rem generalizing db i with
  | zero => exact ⟨rfl, rfl⟩
  | succ r ih =>
    rw [kernelEnsureLoop]
    rcases hget : BlockAlloc.get AggregateKernel.init db.kernels (first + i) false with
      ⟨k1, out⟩
    have hk1 : k1 = db.kernels := by
      have h := BlockAlloc.get_false_fst AggregateKernel.init db.kernels (first + i)
      rw [hget] at h
      exact h
    subst hk1
    cases out with
    | found => exact ih { db with kernels := db.kernels } (i + 1)
    | notFound => exact ⟨rfl, rfl⟩
    | oobAccess => exact ⟨rfl, rfl⟩

/-- C2 (amended): find_entry with alloc = false never allocates a block -
the trie and kernel pool block counts after the call equal the counts
before.  The rest of the original claim is refuted by c2_counterexample
below: a missing child id is still assigned (incrementing num_trie_entries,
and num_kernel_entries at the terminal) and the lookup can succeed, because
the id assignment itself needs no allocation and the fresh node's block may
already exist. -/
theorem c2_find_entry_no_alloc_preserves_blocks (db : AggregateDB)
    (key : List Nat) :
    (find_entry db key false).1.trie.num_blocks = db.trie.num_blocks ∧
    (find_entry db key false).1.kernels.num_blocks = db.kernels.num_blocks := by
  unfold find_entry
  rcases hroot : BlockAlloc.get TrieNode.init db.trie 0 false with ⟨trie0, out0⟩
  have ht0 : trie0 = db.trie := by
    have h := BlockAlloc.get_false_fst TrieNode.init db.trie 0
    rw [hroot] at h
    exact h
  subst ht0
  cases out0 with
  | notFound => exact ⟨rfl, rfl⟩
  | oobAccess => exact ⟨rfl, rfl⟩
  | found =>
    simp only
    have hfl := findLoop_false_num_blocks key { db with trie := db.trie } 0
    rcases hloop : findLoop { db with trie := db.trie } 0 key false with ⟨db1, eid?⟩
    rw [hloop] at hfl
    rcases eid? with _ | eid
    · exact ⟨hfl.1, by rw [hfl.2]⟩
    · simp only
      by_cases hsent : (BlockAlloc.read TrieNode.init db1.trie eid).k_id = U32_SENTINEL
      · rw [if_pos hsent]
        by_cases hlen : 0 < db1.aggr_attributes.length
        · rw [if_pos hlen]
          have hke := kernelEnsureLoop_false_num_blocks db1.aggr_attributes.length
            { db1 with
              num_kernel_entries := db1.num_kernel_entries + db1.aggr_attributes.length }
            ((db1.num_kernel_entries + 1) % 2 ^ 32) 0
          rcases hkl : kernelEnsureLoop
              { db1 with
                num_kernel_entries := db1.num_kernel_entries + db1.aggr_attributes.length }
              ((db1.num_kernel_entries + 1) % 2 ^ 32) 0
              db1.aggr_attributes.length false with ⟨db3, ok⟩
          rw [hkl] at hke
          rcases ok with _ | _
          · simp only
            exact ⟨hke.1.symm ▸ hfl.1, by
              have : db3.kernels.num_blocks = db1.kernels.num_blocks := hke.2
              rw [this, hfl.2]⟩
          · simp only
            refine ⟨?_, by
              have : db3.kernels.num_blocks = db1.kernels.num_blocks := hke.2
              rw [this, hfl.2]⟩
            rw [BlockAlloc.write_num_blocks]
            exact hke.1.symm ▸ hfl.1
        · rw [if_neg hlen]
          exact ⟨hfl.1, by rw [hfl.2]⟩
      · rw [if_neg hsent]
        exact ⟨hfl.1, by rw [hfl.2]⟩

/-- C2 counterexample: on a freshly constructed database (first trie and
kernel blocks allocated by the constructor, root child table all zero) a
find_entry with alloc = false for the one-byte key [5] encounters a missing
step - the root's child id for byte 5 is 0 - yet does NOT return not-found
and does NOT leave the database unchanged: it succeeds and increments
num_trie_entries (and num_kernel_entries for the one configured aggregated
attribute), because the assignment `entry->next[key[i]] = id` (line 225) is
not guarded by `alloc` and block 0 of both pools already exists. -/
theorem c2_counterexample :
    (find_entry (AggregateDB.fresh [1]) [5] false).2 ≠ none ∧
    (find_entry (AggregateDB.fresh [1]) [5] false).1.num_trie_entries = 1 ∧
    (AggregateDB.fresh [1]).num_trie_entries = 0 ∧
    (find_entry (AggregateDB.fresh [1]) [5] false).1.num_kernel_entries = 1 ∧
    (AggregateDB.fresh [1]).num_kernel_entries = 0 := by
  refine ⟨?_, ?_, rfl, ?_, rfl⟩ <;> decide

/-- Modelled from the spec: the digit loop of vlenc_u64 from c-util/vlenc.h,
which belongs to the repository but is not under src.  Spec section 4A:
standard little-endian base-128 variable-length encoding of unsigned 64-bit
integers; each output byte carries 7 payload bits, the high bit is 1 for
continue and 0 for the final byte.  The recursion is bounded by a digit
budget; the spec fixes the output length to the range [1, 10], and 10
digits are exact for every 64-bit input (128^10 = 2^70 > 2^64). -/
def vlencAux (fuel v : Nat) : List Nat :=
  match fuel with
  | 0 => []
  | f + 1 => if v < 128 then [v] else (v % 128 + 128) :: vlencAux f (v / 128)

/-- Modelled from the spec: vlenc_u64 applied to a 64-bit value; the
argument is truncated to 64 bits exactly as the uint64_t values the source
passes are.  Returns the list of output bytes; its length is the byte count
vlenc_u64 returns. -/
def vlenc (v : Nat) : List Nat := vlencAux 10 (v % 2 ^ 64)

/-- The node-id encoding loop of AggregateDB::process_snapshot
(lines 454-455): `for (i = 0; i < n_nodes && node_key_len + 10 < MAX_KEYLEN;
++i) node_key_len += vlenc_u64(nodeid_vec[i], node_key + node_key_len);`.
The guard is checked before each write and the loop stops at the first
failure. -/
def nodeKeyLoop (ids : List Nat) (acc : List Nat) : List Nat :=
  match ids with
  | [] => acc
  | id :: rest =>
    if acc.length + 10 < MAX_KEYLEN then nodeKeyLoop rest (acc ++ vlenc id)
    else acc

/-- An immediate entry of a snapshot: the attribute id, the raw value
reinterpreted as a 64-bit unsigned integer - the
`*static_cast<const uint64_t*>(addr.immediate_data[i].data())` of line 469,
used by the key encoder - and the to_double() conversion of the same
Variant (line 517), used by the kernel update.  The two views of one
Variant are independent fields of the model. -/
structure Imm where
  attr : Nat
  raw : Nat
  value : ℚ
deriving DecidableEq

/-- The inner immediate-key loop of AggregateDB::process_snapshot
(lines 464-477) for one configured key attribute `attrId` at bitfield index
`k`: scan the snapshot's immediate entries; on a match, speculatively
encode the raw value, then check
`node_key_len + imm_key_len + p + vlenc_u64(imm_key_bitfield | (1 << k), buf)
+ 1 >= MAX_KEYLEN` (line 472) and `break` - leaving this attribute's
remaining immediates unprocessed - or commit the bit and the bytes.  The C
`1 << k` int shift is modelled as 2 ^ k (the concrete inputs of the
theorems keep k far below 31). -/
def immInner (nodeLen attrId k : Nat) (imms : List Imm) (bf : Nat)
    (ik : List Nat) : Nat × List Nat :=
  match imms with
  | [] => (bf, ik)
  | im :: rest =>
    if im.attr = attrId then
      if MAX_KEYLEN ≤ nodeLen + ik.length + (vlenc im.raw).length +
          (vlenc (bf ||| 2 ^ k)).length + 1 then (bf, ik)
      else immInner nodeLen attrId k rest (bf ||| 2 ^ k) (ik ++ vlenc im.raw)
    else immInner nodeLen attrId k rest bf ik

/-- The outer immediate-key loop of AggregateDB::process_snapshot
(line 463): iterate immInner over the configured key attribute ids in
declaration order, `k` being the running bitfield index.  Note that the
inner `break` only ends the scan for the current attribute; the outer loop
continues with the next one. -/
def immOuter (nodeLen : Nat) (imms : List Imm) (attrs : List Nat) (k : Nat)
    (bf : Nat) (ik : List Nat) : Nat × List Nat :=
  match attrs with
  | [] => (bf, ik)
  | a :: rest =>
    immOuter nodeLen imms rest (k + 1) (immInner nodeLen a k imms bf ik).1
      (immInner nodeLen a k imms bf ik).2

/-- The key assembly of AggregateDB::process_snapshot for the branch that
takes the snapshot's nodes directly (lines 426-437 and 449-492): the node
ids are sorted ascending (std::sort, line 436, modelled by insertionSort),
encoded by nodeKeyLoop, the immediate portion is built by immOuter, and the
key is `toc = 2 * n_nodes + (bitfield nonzero)` as varint, the node-id
bytes, then - when the bitfield is nonzero - the bitfield varint and the
immediate-value bytes.  `n_nodes` in the toc is sizes.n_nodes, the full
snapshot node count, regardless of how many ids nodeKeyLoop wrote. -/
def encodeKeyless (nodeIds : List Nat) (imms : List Imm)
    (keyAttrIds : List Nat) : List Nat :=
  vlenc (2 * nodeIds.length +
      (if (immOuter (nodeKeyLoop (List.insertionSort (· ≤ ·) nodeIds) []).length
            imms keyAttrIds 0 0 []).1 = 0 then 0 else 1)) ++
    nodeKeyLoop (List.insertionSort (· ≤ ·) nodeIds) [] ++
    (if (immOuter (nodeKeyLoop (List.insertionSort (· ≤ ·) nodeIds) []).length
          imms keyAttrIds 0 0 []).1 = 0 then []
     else vlenc (immOuter (nodeKeyLoop (List.insertionSort (· ≤ ·) nodeIds) []).length
            imms keyAttrIds 0 0 []).1 ++
       (immOuter (nodeKeyLoop (List.insertionSort (· ≤ ·) nodeIds) []).length
          imms keyAttrIds 0 0 []).2)

set_option maxRecDepth 8000

/-- The concrete snapshot node-id list for the C4 counterexample: 57 ids
below 128 (one key byte each) and 7 ids of 2^63 (ten key bytes each), 64
nodes in total - well within the SNAP_MAX = 80 snapshot capacity. -/
def c4_nodeIds : List Nat := List.range 57 ++ List.replicate 7 (2 ^ 63)

/-- C4: every non-empty snapshot is claimed to yield an encoded key of
length at most KEYLEN_MAX = 128 with every byte written inside the key
buffer.  The length guards of the source (lines 454 and 472) budget one
byte for the toc varint, but the toc is 2 * n_nodes + b and needs two bytes
as soon as n_nodes is 64 or more.  For the keyless snapshot c4_nodeIds the
node portion fills 127 bytes (the loop guard `node_key_len + 10 < 128`
admits it) and the toc 2 * 64 = 128 takes two bytes, so the assembled key
is 129 bytes long: the final `memcpy(key + pos, node_key, node_key_len)`
(line 483) writes one byte past the 128-byte `key` array, and the stored
key length exceeds KEYLEN_MAX. -/
theorem c4_key_overflow :
    (encodeKeyless c4_nodeIds [] []).length = 129 ∧
    MAX_KEYLEN < (encodeKeyless c4_nodeIds [] []).length := by
  constructor
  · decide
  · rw [show (encodeKeyless c4_nodeIds [] []).length = 129 from by decide]
    decide

/-- The configured key attribute ids for the C5 counterexample: fourteen
attributes, ids 200 .. 213. -/
def c5_attrs : List Nat := (List.range 14).map (fun i => 200 + i)

/-- The snapshot immediates for the C5 counterexample: attributes
200 .. 212 carry ten-byte values (2^63) and attribute 213 a one-byte value.
The first twelve commit (120 immediate bytes), the candidate for attribute
212 (bitfield index 12) fails the length check, and attribute 213 still
fits afterwards. -/
def c5_imms : List Imm :=
  (List.range 13).map (fun i => { attr := 200 + i, raw := 2 ^ 63, value := 0 }) ++
    [{ attr := 213, raw := 1, value := 1 }]

/-- C5 counterexample: the claim says that as soon as one candidate
immediate would overflow the key, that candidate and all immediates for all
later configured key attributes are excluded - no later bit set, no later
value appended.  In the source the failing length check executes `break`
(line 473), which only leaves the inner loop over the snapshot's
immediates; the outer loop over configured key attributes continues.  With
a node portion of length 0, immediates for bitfield indices 0 .. 11 commit,
the candidate for index 12 fails the check (bit 12 stays clear), and the
shorter candidate for index 13 is then still committed: bit 13 is set in
the final bitfield and its value byte is appended, contradicting the
claim. -/
theorem c5_counterexample :
    (immOuter 0 c5_imms c5_attrs 0 0 []).1.testBit 12 = false ∧
    (immOuter 0 c5_imms c5_attrs 0 0 []).1.testBit 13 = true ∧
    (immOuter 0 c5_imms c5_attrs 0 0 []).2.length = 121 := by
  refine ⟨?_, ?_, ?_⟩ <;> decide

/-- The committed-state invariant of the immediate-key loops: either
nothing has been committed (bitfield 0), or the node portion, the committed
immediate bytes, the varint of the current bitfield and one byte of slack
fit strictly below MAX_KEYLEN.  Every commit (line 472) checks exactly this
bound before it happens, and non-committing steps change nothing. -/
theorem immInner_bound (nodeLen attrId k : Nat) (imms : List Imm) (bf : Nat)
    (ik : List Nat)
    (h : bf = 0 ∨ nodeLen + ik.length + (vlenc bf).length + 1 < MAX_KEYLEN) :
    (immInner nodeLen attrId k imms bf ik).1 = 0 ∨
      nodeLen + (immInner nodeLen attrId k imms bf ik).2.length +
        (vlenc (immInner nodeLen attrId k imms bf ik).1).length + 1 < MAX_KEYLEN := by
  induction imms generalizing bf ik with
  | nil => exact h
  | cons im rest ih =>
    rw [immInner]
    by_cases hm : im.attr = attrId
    · rw [if_pos hm]
      by_cases hc : MAX_KEYLEN ≤ nodeLen + ik.length + (vlenc im.raw).length +
          (vlenc (bf ||| 2 ^ k)).length + 1
      · rw [if_pos hc]
        exact h
      · rw [if_neg hc]
        refine ih (bf ||| 2 ^ k) (ik ++ vlenc im.raw) (Or.inr ?_)
        rw [List.length_append]
        omega
    · rw [if_neg hm]
      exact ih bf ik h

/-- The outer immediate loop preserves the committed-state invariant. -/
theorem immOuter_bound (attrs : List Nat) (nodeLen : Nat) (imms : List Imm)
    (k bf : Nat) (ik : List Nat)
    (h : bf = 0 ∨ nodeLen + ik.length + (vlenc bf).length + 1 < MAX_KEYLEN) :
    (immOuter nodeLen imms attrs k bf ik).1 = 0 ∨
      nodeLen + (immOuter nodeLen imms attrs k bf ik).2.length +
        (vlenc (immOuter nodeLen imms attrs k bf ik).1).length + 1 < MAX_KEYLEN := by
  induction attrs generalizing k bf ik with
  | nil => exact h
  | cons a rest ih =>
    rw [immOuter]
    exact ih (k + 1) _ _ (immInner_bound nodeLen a k imms bf ik h)

/-- C5 (amended): each candidate immediate entry is length-checked before
being committed, so whenever any immediate has been committed the final
node portion, immediate bytes, bitfield varint and one byte of slack fit
strictly below KEYLEN_MAX; a candidate that fails the check is excluded
together with the remaining immediates of that same configured key
attribute only - immediates for later configured key attributes are still
considered and are committed when they fit (see c5_counterexample). -/
theorem c5_imm_commit_checked (nodeLen : Nat) (imms : List Imm)
    (attrs : List Nat) :
    (immOuter nodeLen imms attrs 0 0 []).1 = 0 ∨
      nodeLen + (immOuter nodeLen imms attrs 0 0 []).2.length +
        (vlenc (immOuter nodeLen imms attrs 0 0 []).1).length + 1 < MAX_KEYLEN :=
  immOuter_bound attrs nodeLen imms 0 0 [] (Or.inl rfl)

/-- C6: when no key attributes are configured, process_snapshot takes the
snapshot's node ids directly and sorts them ascending (lines 426-437)
before encoding, so any two snapshots whose node lists are permutations of
each other, with identical immediate entries, produce byte-identical
encoded keys.  Sorting makes the encoder's input - and with it every part
of the key, including the node-count toc - independent of the original
order. -/
theorem c6_perm_same_key (l1 l2 : List Nat) (imms : List Imm)
    (attrs : List Nat) (h : l1.Perm l2) :
    encodeKeyless l1 imms attrs = encodeKeyless l2 imms attrs := by
  have hsort : List.insertionSort (· ≤ ·) l1 = List.insertionSort (· ≤ ·) l2 := by
    refine List.eq_of_perm_of_sorted ?_ (List.sorted_insertionSort _ l1)
      (List.sorted_insertionSort _ l2)
    exact ((List.perm_insertionSort _ l1).trans h).trans
      (List.perm_insertionSort _ l2).symm
  unfold encodeKeyless
  rw [hsort, h.length_eq]

/-- Witness for c6_perm_same_key at the concrete pair of node lists [3, 5]
and [5, 3] (spec section 8, end-to-end scenario 2). -/
theorem c6_perm_same_key_witness :
    ([3, 5] : List Nat).Perm [5, 3] ∧
      encodeKeyless [3, 5] [] [] = encodeKeyless [5, 3] [] [] :=
  ⟨by decide, c6_perm_same_key [3, 5] [5, 3] [] [] (by decide)⟩

/-- The kernel-update inner loop of AggregateDB::process_snapshot
(lines 512-518) for one aggregated attribute at offset `a` with id `aid`:
for each matching immediate entry, fetch kernel k_id + a with
alloc = !is_signal and, when the fetch succeeds, add the entry's double
value. -/
def kernelAddLoop (db : AggregateDB) (kid a aid : Nat) (imms : List Imm)
    (alloc : Bool) : AggregateDB :=
  match imms with
  | [] => db
  | im :: rest =>
    if im.attr = aid then
      match BlockAlloc.get AggregateKernel.init db.kernels (kid + a) alloc with
      | (k1, GetOutcome.found) =>
          let kv := (BlockAlloc.read AggregateKernel.init k1 (kid + a)).add im.value
          kernelAddLoop { db with kernels := k1.write (kid + a) kv } kid a aid
            rest alloc
      | (k1, _) => kernelAddLoop { db with kernels := k1 } kid a aid rest alloc
    else kernelAddLoop db kid a aid rest alloc

/-- The kernel-update outer loop of AggregateDB::process_snapshot
(line 511): iterate kernelAddLoop over the aggregated attributes, `a` being
the running kernel offset. -/
def updateKernelsLoop (db : AggregateDB) (kid : Nat) (aggrIds : List Nat)
    (a : Nat) (imms : List Imm) (alloc : Bool) : AggregateDB :=
  match aggrIds with
  | [] => db
  | aid :: rest =>
      updateKernelsLoop (kernelAddLoop db kid a aid imms alloc) kid rest (a + 1)
        imms alloc

/-- AggregateDB::process_snapshot (lines 352-519) for the configurations in
which the key-attribute node branch is not taken (no resolved key attribute
or no node entries, line 376), so the node ids are taken from the snapshot
directly and sorted (lines 426-437): return on an empty snapshot, build the
key, update m_max_keylen, find or create the trie entry with
alloc = !is_signal (dropping the snapshot when that fails), increment the
terminal's count and fold the matching immediates into the kernels. -/
def processSnapshot (db : AggregateDB) (nodeIds : List Nat) (imms : List Imm)
    (keyAttrIds : List Nat) (isSignal : Bool) : AggregateDB :=
  if nodeIds.length + imms.length = 0 then db
  else
    match find_entry
        { db with max_keylen :=
            Max.max (encodeKeyless nodeIds imms keyAttrIds).length db.max_keylen }
        (encodeKeyless nodeIds imms keyAttrIds) (!isSignal) with
    | (db1, none) => { db1 with num_dropped := db1.num_dropped + 1 }
    | (db1, some eid) =>
      let node := BlockAlloc.read TrieNode.init db1.trie eid
      updateKernelsLoop
        { db1 with trie := db1.trie.write eid { node with count := node.count + 1 } }
        node.k_id db1.aggr_attributes 0 imms (!isSignal)

/-- AggregateDB::process_snapshot_cb (lines 648-655), given the database
acquire returned for the current thread: when the database exists and is
not stopped, process the snapshot; otherwise drop it and increment the
GLOBAL counter s_global_num_dropped (line 654).  Returns the thread's
database and the global dropped counter after the call. -/
def processSnapshotCb (db : Option AggregateDB) (nodeIds : List Nat)
    (imms : List Imm) (keyAttrIds : List Nat) (isSignal : Bool)
    (globalDropped : Nat) : Option AggregateDB × Nat :=
  match db with
  | some d =>
    if d.stopped = false then
      (some (processSnapshot d nodeIds imms keyAttrIds isSignal), globalDropped)
    else (some d, globalDropped + 1)
  | none => (none, globalDropped + 1)

/-- C8 (amended): a snapshot arriving for a database whose stopped flag is
true is dropped without mutating the database - process_snapshot is never
called, the returned database is the argument itself - and the GLOBAL
s_global_num_dropped counter increments by one.  The original claim's
assertion that the database's own num_dropped counter increments is refuted
by c8_counterexample below: the source increments s_global_num_dropped
(line 654), not m_num_dropped. -/
theorem c8_stopped_drop (db : AggregateDB) (nodeIds : List Nat)
    (imms : List Imm) (attrs : List Nat) (sig : Bool) (g : Nat) :
    processSnapshotCb (some { db with stopped := true }) nodeIds imms attrs
        sig g =
      (some { db with stopped := true }, g + 1) := by
  simp [processSnapshotCb]

/-- A freshly constructed database whose flush has begun: stopped is set. -/
def c8_db : AggregateDB := { AggregateDB.fresh [] with stopped := true }

/-- C8 counterexample: for the concrete stopped database c8_db and a
non-empty snapshot, the callback leaves the database's own num_dropped at
0 - it does not become num_dropped + 1 = 1 as the claim demands - while the
global counter goes from 0 to 1. -/
theorem c8_counterexample :
    ((processSnapshotCb (some c8_db) [7] [] [] false 0).1.map
        AggregateDB.num_dropped) = some 0 ∧
    ((processSnapshotCb (some c8_db) [7] [] [] false 0).1.map
        AggregateDB.num_dropped) ≠ some (c8_db.num_dropped + 1) ∧
    (processSnapshotCb (some c8_db) [7] [] [] false 0).2 = 1 := by
  refine ⟨?_, ?_, ?_⟩ <;> decide

/-- The root lookup of AggregateDB::flush (line 522):
`m_trie.get(0, false)`, as the entry handed to recursive_flush. -/
def rootEntry (db : AggregateDB) : Option Nat :=
  match BlockAlloc.get TrieNode.init db.trie 0 false with
  | (_, GetOutcome.found) => some 0
  | (_, _) => none

/-- AggregateDB::recursive_flush (lines 307-338): a null entry contributes
nothing; otherwise count one record if the node's count is positive and
recurse into every nonzero child in byte order, each child fetched with
`m_trie.get(next[i], false)` (a failed fetch recursing on a null entry).
The fuel argument bounds the recursion depth; the C++ recursion has no such
bound (its depth is the key length), so the theorems below quantify over
every fuel value. -/
def recursiveFlush (db : AggregateDB) (fuel : Nat) (entry : Option Nat) : Nat :=
  match entry with
  | none => 0
  | some eid =>
    match fuel with
    | 0 => 0
    | f + 1 =>
      (if 0 < (BlockAlloc.read TrieNode.init db.trie eid).count then 1 else 0) +
        ((List.range 256).map (fun b =>
          if (BlockAlloc.read TrieNode.init db.trie eid).next b = 0 then 0
          else
            recursiveFlush db f
              (match BlockAlloc.get TrieNode.init db.trie
                  ((BlockAlloc.read TrieNode.init db.trie eid).next b) false with
               | (_, GetOutcome.found) =>
                   some ((BlockAlloc.read TrieNode.init db.trie eid).next b)
               | (_, _) => none))).sum

/-- AggregateDB::flush (lines 521-526): the number of aggregated snapshots
written by walking the trie from the root. -/
def AggregateDB.flush (db : AggregateDB) (fuel : Nat) : Nat :=
  recursiveFlush db fuel (rootEntry db)

/-- C7: flush followed immediately by flush - with clear run after the
first flush, as flush_cb does (lines 612-621) - emits zero records on the
second flush: clear drops every trie block, so the root lookup
`m_trie.get(0, false)` fails, recursive_flush receives a null entry and
writes nothing, for every database state and every recursion budget. -/
theorem c7_flush_after_clear (db : AggregateDB) (fuel : Nat) :
    (db.clear).flush fuel = 0 := by
  unfold AggregateDB.flush
  rw [show rootEntry db.clear = none from rfl]
  cases fuel <;> rfl

/-- The statistic kinds emitted per aggregated attribute by
write_aggregated_snapshot (lines 293-295). -/
inductive StatKind where
  | sMin
  | sMax
  | sSum
deriving DecidableEq

/-- An entry appended to the synthetic flush snapshot by the aggregate part
of write_aggregated_snapshot: a min/max/sum statistic for the aggregated
attribute at offset `a`, or the count record (line 300). -/
inductive FlushEntry where
  | stat : Nat → StatKind → ℚ → FlushEntry
  | countRecord : Nat → FlushEntry
deriving DecidableEq

/-- A kernel fetch during flush: `m_kernels.get(entry->k_id + a, false)`
(line 286), returning the slot's value when the fetch yields a non-null
pointer. -/
def kernelsPeek (st : BlockAlloc AggregateKernel) (id : Nat) :
    Option AggregateKernel :=
  match BlockAlloc.get AggregateKernel.init st id false with
  | (_, GetOutcome.found) => some (BlockAlloc.read AggregateKernel.init st id)
  | (_, _) => none

/-- The statistics loop of write_aggregated_snapshot (lines 285-296),
`rem` iterations remaining starting at offset `a`: a failed kernel fetch
breaks the loop, a kernel with count 0 is skipped, otherwise the min, max
and sum entries for offset `a` are appended. -/
def statsLoop (st : BlockAlloc AggregateKernel) (kid a rem : Nat) :
    List FlushEntry :=
  match rem with
  | 0 => []
  | r + 1 =>
    match kernelsPeek st (kid + a) with
    | none => []
    | some k =>
      (if k.count = 0 then []
       else [FlushEntry.stat a StatKind.sMin k.min,
             FlushEntry.stat a StatKind.sMax k.max,
             FlushEntry.stat a StatKind.sSum k.sum]) ++ statsLoop st kid (a + 1) r

/-- The aggregate-entry part of AggregateDB::write_aggregated_snapshot
(lines 280-300): the statistics loop runs for
min(num_aggr_attr, SNAP_MAX / 3) offsets and the count record is appended
unconditionally afterwards. -/
def writeAggregatedStats (st : BlockAlloc AggregateKernel)
    (kid numAggr cnt : Nat) : List FlushEntry :=
  statsLoop st kid 0 (Min.min numAggr (SNAP_MAX / 3)) ++
    [FlushEntry.countRecord cnt]

/-- Every entry statsLoop emits is a statistic whose offset lies in the
iteration range, and every offset from the start of the loop up to it had a
successful kernel fetch. -/
theorem statsLoop_mem (st : BlockAlloc AggregateKernel) (kid : Nat)
    (rem : Nat) :
    ∀ a e, e ∈ statsLoop st kid a rem →
      ∃ i kind v, e = FlushEntry.stat i kind v ∧ a ≤ i ∧ i < a + rem ∧
        ∀ j, a ≤ j → j ≤ i → kernelsPeek st (kid + j) ≠ none := by
  induction rem with
  | zero =>
    intro a e he
    simp [statsLoop] at he
  | succ r ih =>
    intro a e he
    rw [statsLoop] at he
    rcases hp : kernelsPeek st (kid + a) with _ | k
    · rw [hp] at he
      simp at he
    · rw [hp] at he
      rw [List.mem_append] at he
      rcases he with he | he
      · by_cases hc : k.count = 0
        · rw [if_pos hc] at he
          simp at he
        · rw [if_neg hc] at he
          have hia : ∃ kind v, e = FlushEntry.stat a kind v := by
            simp only [List.mem_cons, List.not_mem_nil, or_false] at he
            rcases he with he | he | he
            · exact ⟨StatKind.sMin, k.min, he⟩
            · exact ⟨StatKind.sMax, k.max, he⟩
            · exact ⟨StatKind.sSum, k.sum, he⟩
          rcases hia with ⟨kind, v, hev⟩
          refine ⟨a, kind, v, hev, le_refl a, by omega, ?_⟩
          intro j hj1 hj2
          have hja : j = a := le_antisymm hj2 hj1
          rw [hja, hp]
          exact Option.some_ne_none k
      · rcases ih (a + 1) e he with ⟨i, kind, v, hev, hai, hir, hall⟩
        refine ⟨i, kind, v, hev, by omega, by omega, ?_⟩
        intro j hj1 hj2
        rcases Nat.lt_or_ge j (a + 1) with hja | hja
        · have : j = a := by omega
          rw [this, hp]
          exact Option.some_ne_none k
        · exact hall j hja hj2

/-- C9: each record emitted during flush contains min/max/sum statistic
triples for at most SNAP_MAX / 3 = 26 aggregated attributes - every
statistic's offset is below min(num_aggr_attr, SNAP_MAX / 3) - and
statistics emission stops at the first aggregated attribute whose kernel
slot cannot be fetched, omitting it and all later attributes from the
record, while the count entry is always emitted. -/
theorem c9_stats_emission (st : BlockAlloc AggregateKernel)
    (kid numAggr cnt a0 : Nat) (h : kernelsPeek st (kid + a0) = none) :
    (∀ i kind v,
        FlushEntry.stat i kind v ∈ writeAggregatedStats st kid numAggr cnt →
          i < Min.min numAggr (SNAP_MAX / 3) ∧ i < a0) ∧
    FlushEntry.countRecord cnt ∈ writeAggregatedStats st kid numAggr cnt := by
  constructor
  · intro i kind v hmem
    unfold writeAggregatedStats at hmem
    rw [List.mem_append] at hmem
    rcases hmem with hm | hm
    · rcases statsLoop_mem st kid _ 0 _ hm with ⟨i', kind', v', hev, h0, hlt, hall⟩
      have hii : i = i' := by
        injection hev
      subst hii
      refine ⟨by omega, ?_⟩
      by_contra hge
      push_neg at hge
      exact hall a0 (Nat.zero_le a0) hge h
    · simp at hm
  · unfold writeAggregatedStats
    simp

/-- Witness for c9_stats_emission: on an empty kernel pool the very first
fetch fails, and the count record is still emitted. -/
theorem c9_stats_emission_witness :
    FlushEntry.countRecord 5 ∈
      writeAggregatedStats (BlockAlloc.empty AggregateKernel) 0 3 5 :=
  (c9_stats_emission (BlockAlloc.empty AggregateKernel) 0 3 5 0 rfl).2

/-- AggregateDB::acquire (lines 566-586), the databases identified by
handles: read the thread slot (pthread_getspecific); when it is empty and
alloc is set, construct a new database and - only if pthread_setspecific
succeeded (returned 0, line 573) - store it in the slot and splice it at
the head of the global list.  The doubly-linked list is modelled by the
list of its members in head order.  Returns the database the call hands
back, the slot contents after the call, and the global list after the
call. -/
def acquire (slot : Option Nat) (alloc : Bool) (newDb : Nat)
    (setspecificOk : Bool) (list : List Nat) :
    Option Nat × Option Nat × List Nat :=
  match slot with
  | some db => (some db, some db, list)
  | none =>
    if alloc then
      if setspecificOk then (some newDb, some newDb, newDb :: list)
      else (some newDb, none, list)
    else (none, none, list)

/-- AggregateDB::flush_cb (lines 597-646) visits the databases reachable
from the snapshotted list head through the m_next chain: exactly the
members of the global list. -/
def flushAllVisits (list : List Nat) : List Nat := list

/-- C10: when pthread_setspecific fails during acquire, the newly
constructed database is still returned (and thus used for the current
ingest), but it is never spliced into the global list: the list is
unchanged and flush_cb - which walks that list - never visits the database,
so its contents are never emitted or reclaimed. -/
theorem c10_setspecific_failure (newDb : Nat) (list : List Nat)
    (h : newDb ∉ list) :
    (acquire none true newDb false list).1 = some newDb ∧
    (acquire none true newDb false list).2.2 = list ∧
    newDb ∉ flushAllVisits (acquire none true newDb false list).2.2 := by
  refine ⟨rfl, rfl, ?_⟩
  simpa [acquire, flushAllVisits] using h

/-- Witness for c10_setspecific_failure at the concrete fresh handle 2 and
global list [5]. -/
theorem c10_setspecific_failure_witness :
    (2 : Nat) ∉ ([5] : List Nat) ∧
      (acquire none true 2 false [5]).1 = some 2 ∧
      2 ∉ flushAllVisits (acquire none true 2 false [5]).2.2 :=
  ⟨by decide, (c10_setspecific_failure 2 [5] (by decide)).1,
    (c10_setspecific_failure 2 [5] (by decide)).2.2⟩
